import Mathlib

/-!
Verification development for the Freematics `firmware_v5/telelogger`
sketch (`telelogger.ino`).  The definitions below are a shallow embedding
of the sketch's telemetry session engine: buffers are lists of byte
values (`List Nat`, each element intended `< 256`), 32-bit machine
arithmetic is `Nat` with explicit `% 2^32`, and fallible transport
operations are driven by explicit oracles.
-/

namespace Telelogger

/-! ## Byte-string helpers (libc subset used by the sketch) -/

/-- Byte values of a textual literal (ASCII). -/
def strBytes (s : String) : List Nat := s.toList.map Char.toNat

/-- Does the pattern occur as an initial run of the list? -/
def leadsWith : List Nat → List Nat → Bool
  | [], _ => true
  | _ :: _, [] => false
  | p :: ps, x :: xs => p == x && leadsWith ps xs

/-- C `strstr`: the suffix of `l` starting at the first occurrence of
`pat`, or `none` when `pat` does not occur. -/
def findSeq (pat : List Nat) : List Nat → Option (List Nat)
  | [] => if pat.isEmpty then some [] else none
  | x :: xs => if leadsWith pat (x :: xs) then some (x :: xs) else findSeq pat xs

/-- Does `pat` occur anywhere in `l`? -/
def containsSeq (pat l : List Nat) : Bool := (findSeq pat l).isSome

/-- Index of the last occurrence of `x` (C `strrchr`), if any. -/
def lastIdxOf (x : Nat) : List Nat → Option Nat
  | [] => none
  | y :: ys =>
    match lastIdxOf x ys with
    | some i => some (i + 1)
    | none => if y == x then some 0 else none

/-- Decimal digit parse of one byte. -/
def decVal? (c : Nat) : Option Nat :=
  if 48 ≤ c ∧ c ≤ 57 then some (c - 48) else none

/-- Parse a run of leading decimal digits into a natural number,
accumulator style. -/
def decRun (acc : Nat) : List Nat → Nat
  | [] => acc
  | c :: cs =>
    match decVal? c with
    | some d => decRun (acc * 10 + d) cs
    | none => acc

/-- C `atol`/`atoi` on a byte string: skip leading spaces/tabs, parse an
optional sign and a run of decimal digits; no digits gives `0`. -/
def atolInt : List Nat → Int
  | [] => 0
  | c :: cs =>
    if c = 32 ∨ c = 9 then atolInt cs
    else if c = 45 then -(decRun 0 cs : Int)
    else if c = 43 then (decRun 0 cs : Int)
    else (decRun 0 (c :: cs) : Int)

/-- Conversion of a C `long` value to `uint32_t` (two's-complement wrap). -/
def toU32 (i : Int) : Nat := (i % (2 ^ 32 : Int)).toNat

/-- Little-endian base-`base` digits, driven by explicit fuel so that it
reduces by structural recursion (`fuel ≥ n` suffices). -/
def natDigitsRev (base : Nat) : Nat → Nat → List Nat
  | 0, _ => []
  | fuel + 1, n => if n = 0 then [] else (n % base) :: natDigitsRev base fuel (n / base)

/-- Decimal rendering of an unsigned value (C `sprintf %lu`/`%u`). -/
def decBytes (n : Nat) : List Nat :=
  if n = 0 then [48] else ((natDigitsRev 10 n n).map (fun d => 48 + d)).reverse

/-- One uppercase hexadecimal digit byte. -/
def hexDigitByte (d : Nat) : Nat := if d < 10 then 48 + d else 55 + d

/-- Uppercase hexadecimal rendering of an unsigned value (C `sprintf %X`). -/
def hexBytes (n : Nat) : List Nat :=
  if n = 0 then [48] else ((natDigitsRev 16 n n).map hexDigitByte).reverse

/-- Hexadecimal digit value of one byte, if it is a hex digit. -/
def hexVal? (c : Nat) : Option Nat :=
  if 48 ≤ c ∧ c ≤ 57 then some (c - 48)
  else if 65 ≤ c ∧ c ≤ 70 then some (c - 55)
  else if 97 ≤ c ∧ c ≤ 102 then some (c - 87)
  else none

/-- Modelled from the spec: the library helper `hex2uint8` (absent from
`src/`) reads "the 2-hex-digit value after" the `*`; a malformed digit
yields `0`. -/
def hex2uint8 : List Nat → Nat
  | a :: b :: _ =>
    match hexVal? a, hexVal? b with
    | some x, some y => x * 16 + y
    | _, _ => 0
  | _ => 0

/-- The running 8-bit sum of a byte string (`uint8_t sum` accumulating
with wrap-around at each step, as in `verifyChecksum`). -/
def byteSum (l : List Nat) : Nat := l.foldl (fun a b => (a + b) % 256) 0

/-! ## `verifyChecksum` (telelogger.ino lines 523-534)

The C function takes a NUL-terminated buffer, locates the last `*`,
sums the bytes strictly before it, and on a match overwrites the `*`
with NUL — which, for all subsequent C-string parsing, truncates the
buffer there.  We model the buffer as the byte list of the C string, so
the NUL write becomes truncation; it returns the pair
(result, buffer-afterwards). -/

def verifyChecksum (data : List Nat) : Bool × List Nat :=
  match lastIdxOf 42 data with
  | none => (false, data)
  | some i =>
    if hex2uint8 (data.drop (i + 1)) = byteSum (data.take i) then
      (true, data.take i)
    else
      (false, data)

/-! ## Readiness state bits (telelogger.ino lines 22-28) -/

def STATE_STORAGE_READY : Nat := 0x1
def STATE_OBD_READY : Nat := 0x2
def STATE_GPS_READY : Nat := 0x4
def STATE_MEMS_READY : Nat := 0x8
def STATE_NET_READY : Nat := 0x10
def STATE_CONNECTED : Nat := 0x20
def STATE_ALL_GOOD : Nat := 0x40

/-- `checkState` (line 670): `(m_state & flags) == flags`. -/
def checkState (m flags : Nat) : Bool := m &&& flags == flags

/-- `setState` (line 671): `m_state |= flags`. -/
def setState (m flags : Nat) : Nat := m ||| flags

/-- `clearState` (line 672): `m_state &= ~flags`, on the byte-wide state. -/
def clearState (m flags : Nat) : Nat := m &&& (255 ^^^ flags)

/-! ## Event vocabulary

Modelled from the spec: the event vocabulary is login, logout, sync,
command, ack; the numeric values live in the network-library header that
is not under `src/`.  No claim below depends on the concrete values,
only on events being distinct from `EVENT_ACK` where relevant. -/

def EVENT_LOGIN : Nat := 1
def EVENT_LOGOUT : Nat := 2
def EVENT_SYNC : Nat := 3
def EVENT_RECONNECT : Nat := 4
def EVENT_COMMAND : Nat := 5
def EVENT_ACK : Nat := 6

/-! ## Sample cache (CStorageRAM)

Modelled from the spec: `CStorageRAM` is not under `src/`.  Per §4.2,
`seal()`/`tailer()` appends a checksum trailer — an 8-bit sum of all
prior bytes rendered in hexadecimal after a `*` — and
`unseal()`/`untailer()` removes the trailer (truncating at the last `*`,
as the send failure path requires) so appends can resume;
`open`/`header` resets the buffer to a feed-identifier header and clears
the sample count. -/

def tailerBuf (b : List Nat) : List Nat := b ++ 42 :: hexBytes (byteSum b)

def untailerBuf (b : List Nat) : List Nat :=
  match lastIdxOf 42 b with
  | none => b
  | some i => b.take i

def headerBuf (feedid : Nat) : List Nat := hexBytes feedid ++ [35]

/-! ## Command dispatcher (`processCommand`, lines 288-321)

The state carries the dedup token, the log of commands handed to
`executeCommand`, and the ACK payloads built for `notifyServer`.
`exec` abstracts `executeCommand`'s textual result.  The up-to-3-try
ACK send loop only touches the transport, so the model records the ACK
payload once per invocation.  Note: the source never assigns
`lastCmdToken` (declared line 796, read line 296, and nowhere written),
so the model leaves it unchanged in both branches — exactly as the C
code does. -/

structure CmdState where
  lastCmdToken : Nat
  executed : List (List Nat)
  acks : List (List Nat)
deriving DecidableEq

def processCommand (exec : List Nat → List Nat) (st : CmdState) (data : List Nat) :
    CmdState :=
  match findSeq (strBytes ("TK=")) data with
  | none => st
  | some p =>
    let token := toU32 (atolInt (p.drop 3))
    match findSeq (strBytes ("CMD=")) data with
    | none => st
    | some q =>
      let cmd := q.drop 4
      if st.lastCmdToken < token then
        let result := exec cmd
        let ack := (strBytes ("TK=") ++ decBytes token ++ strBytes (",MSG=") ++ result).take 255
        { st with executed := st.executed ++ [cmd], acks := st.acks ++ [ack] }
      else
        let ack := (strBytes ("TK=") ++ decBytes token ++ strBytes (",DUP=1")).take 63
        { st with acks := st.acks ++ [ack] }

/-! ## Inbound datagram handling (loop, lines 367-389) -/

structure LoopSt where
  cmd : CmdState
  lastSyncTime : Nat
deriving DecidableEq

/-- One inbound datagram: verify the checksum (rejecting on failure
without parsing anything), then look up `EV=` and dispatch on the event
number; returns the updated state and the parsed event, `none` when the
datagram was rejected or carried no event. -/
def handleDatagram (exec : List Nat → List Nat) (t : Nat) (st : LoopSt)
    (data : List Nat) : LoopSt × Option Int :=
  let r := verifyChecksum data
  if r.1 then
    match findSeq (strBytes ("EV=")) r.2 with
    | none => (st, none)
    | some p =>
      let ev : Int := atolInt (p.drop 3)
      if ev = (EVENT_COMMAND : Nat) then
        ({ st with cmd := processCommand exec st.cmd r.2 }, some ev)
      else if ev = (EVENT_SYNC : Nat) then
        ({ st with lastSyncTime := t }, some ev)
      else (st, some ev)
  else (st, none)

/-! ## Request/response round trips (`notifyServer`, lines 535-605)

Transport behavior per attempt is an explicit oracle value: the send
itself can fail, or succeed with either no reply or a reply datagram.
A non-ACK attempt succeeds only when a reply arrives, passes
`verifyChecksum`, and contains the `EV=<event>` echo pattern; ACK events
return right after a successful send.  (The LOGIN-reply field
extraction - server time, server name, feed id - mutates state no claim
here inspects and is elided.)  The result pairs success with the number
of `netSend` calls made. -/

inductive Wire where
  | sendFail : Wire
  | sent : Option (List Nat) → Wire
deriving DecidableEq

/-- The `sprintf(pattern, "EV=%u", event)` echo pattern (line 578). -/
def evPattern (event : Nat) : List Nat := strBytes ("EV=") ++ decBytes event

def attemptSucceeds (event : Nat) : Wire → Bool
  | Wire.sendFail => false
  | Wire.sent r =>
    if event == EVENT_ACK then true
    else
      match r with
      | none => false
      | some d =>
        let v := verifyChecksum d
        v.1 && containsSeq (evPattern event) v.2

/-- The bounded attempt loop of `notifyServer`; the caller passes one
oracle entry per potential attempt (the source caps this at 3). -/
def notifyRun (event : Nat) : List Wire → Bool × Nat
  | [] => (false, 0)
  | w :: ws =>
    if attemptSucceeds event w then (true, 1)
    else
      let r := notifyRun event ws
      (r.1, r.2 + 1)

/-- `notifyServer` with its 3-attempt cap (line 553). -/
def notifyServerRun (event : Nat) (io : Nat → Wire) : Bool × Nat :=
  notifyRun event [io 0, io 1, io 2]

/-- The outbound request framing (lines 538-549):
`EV=<event>,TS=<millis>[,SK=<key>][,<payload>]`. -/
def buildReq (event ts : Nat) (serverKey payload : Option (List Nat)) : List Nat :=
  strBytes ("EV=") ++ decBytes event ++ strBytes (",TS=") ++ decBytes ts ++
    (match serverKey with
      | some k => strBytes (",SK=") ++ k
      | none => []) ++
    (match payload with
      | some pl => [44] ++ pl
      | none => [])

/-! ## `login` (lines 461-522) -/

structure LoginOut where
  ok : Bool
  sends : Nat
  tries : Nat
deriving DecidableEq

/-- The `login` retry loop: up to 3 outer attempts, each one `netOpen`
(whose success the first component of the pair gives) followed by a full
`notifyServer(EVENT_LOGIN, ...)` run on that attempt's transport oracle.
`sends` totals the LOGIN-request `netSend` calls across all attempts,
`tries` counts outer attempts consumed. -/
def loginRun : List (Bool × List Wire) → LoginOut
  | [] => ⟨false, 0, 0⟩
  | (openOk, ios) :: rest =>
    if openOk then
      let r := notifyRun EVENT_LOGIN ios
      if r.1 then ⟨true, r.2, 1⟩
      else
        let o := loginRun rest
        ⟨o.ok, r.2 + o.sends, o.tries + 1⟩
    else
      let o := loginRun rest
      ⟨o.ok, o.sends, o.tries + 1⟩

/-- The tail of `setup()` around `login` (lines 182-185, 242-243): a
failed login aborts `setup` before `setState(STATE_CONNECTED)`; success
sets the connected bit and ultimately `STATE_ALL_GOOD`. -/
def setupFinish (loginOk : Bool) (m : Nat) : Nat × Bool :=
  if loginOk then (setState (setState m STATE_CONNECTED) STATE_ALL_GOOD, true)
  else (m, false)

/-- Reply classifier for scenario modelling: a reply datagram that fails
checksum validation. -/
def isCorruptReply (w : Wire) : Bool :=
  match w with
  | Wire.sent (some d) => !(verifyChecksum d).1
  | _ => false

/-- Reply classifier: a reply that passes checksum validation but lacks
the `EV=<event>` echo pattern. -/
def lacksPattern (event : Nat) (w : Wire) : Bool :=
  match w with
  | Wire.sent (some d) =>
    (verifyChecksum d).1 && !(containsSeq (evPattern event) (verifyChecksum d).2)
  | _ => false

/-! ## OBD polling (`processOBD`/`readSpeed`, lines 675-714)

PID numbers come from the OBD library header absent from `src/`
(standard OBD-II mode-01 identifiers plus the Freematics trip-distance
id); no claim depends on the concrete values.  32-bit globals
(`distance`, `lastSpeedTime`) wrap modulo `2^32` exactly as `uint32_t`
does; `lastSpeed` is a C `int`. -/

def PID_SPEED : Nat := 0x0D
def PID_RPM : Nat := 0x0C
def PID_ENGINE_LOAD : Nat := 0x04
def PID_THROTTLE : Nat := 0x11
def PID_INTAKE_TEMP : Nat := 0x0F
def PID_COOLANT_TEMP : Nat := 0x05
def PID_BAROMETRIC : Nat := 0x33
def PID_AMBIENT_TEMP : Nat := 0x46
def PID_ENGINE_FUEL_RATE : Nat := 0x5E
def PID_TRIP_DISTANCE : Nat := 0x30

structure SpeedState where
  distance : Nat
  lastSpeed : Int
  lastSpeedTime : Nat
deriving DecidableEq

/-- The increment of `readSpeed` (line 707):
`(value + lastSpeed) * (t - lastSpeedTime) / 3600 / 2` in `uint32_t`
arithmetic — the sum is converted to `uint32_t`, the product wraps
modulo `2^32`, and the subtraction is the wrapping `uint32_t`
difference. -/
def speedDelta (st : SpeedState) (v : Int) (t : Nat) : Nat :=
  let dtu := ((t % 2 ^ 32) + 2 ^ 32 - st.lastSpeedTime) % 2 ^ 32
  toU32 (v + st.lastSpeed) * dtu % 2 ^ 32 / 3600 / 2

/-- The state update of a successful `readSpeed` (lines 705-710). -/
def speedStep (st : SpeedState) (v : Int) (t : Nat) : SpeedState :=
  { distance := (st.distance + speedDelta st v t) % 2 ^ 32
    lastSpeed := v
    lastSpeedTime := t % 2 ^ 32 }

/-- The successive stored `distance` values over a sample sequence of
(speed reading, timestamp) pairs. -/
def distancesFrom (st : SpeedState) : List (Int × Nat) → List Nat
  | [] => []
  | (v, t) :: rest =>
    let st' := speedStep st v t
    st'.distance :: distancesFrom st' rest

/-- The un-wrapped (mathematical) total of the per-sample increments
over a sample sequence. -/
def deltaSum (st : SpeedState) : List (Int × Nat) → Nat
  | [] => 0
  | (v, t) :: rest => speedDelta st v t + deltaSum (speedStep st v t) rest

/-- The tier-2 rotation index (line 695): the table subscript is
`count / 50` evaluated after the `count++` of the gate on line 693,
with `count` a wrapping byte. -/
def tier2Idx (count : Nat) : Nat := ((count + 1) % 256) / 50

def pidsTier1 : List Nat := [PID_RPM, PID_ENGINE_LOAD, PID_THROTTLE]

def pidTier2 : List Nat :=
  [PID_INTAKE_TEMP, PID_COOLANT_TEMP, PID_BAROMETRIC, PID_AMBIENT_TEMP,
   PID_ENGINE_FUEL_RATE]

structure ObdState where
  sp : SpeedState
  count : Nat
  logged : List (Nat × Int)
deriving DecidableEq

/-- One `processOBD` iteration.  `rp` is the `readPID` oracle for this
iteration (`none` = failed read), `valid` is `isValidPID`, `t` the
current `millis()`.  A failed speed read returns before anything is
logged or counted; the tier-2 table access is `pidTier2.get?` so an
out-of-range subscript surfaces as `none` (in C it reads out of
bounds). -/
def processOBD (rp : Nat → Option Int) (valid : Nat → Bool) (t : Nat)
    (st : ObdState) : ObdState :=
  match rp PID_SPEED with
  | none => st
  | some v =>
    let sp := speedStep st.sp v t
    let log1 : List (Nat × Int) := [(0x100 ||| PID_SPEED, v), (PID_TRIP_DISTANCE, (sp.distance : Int))]
    let log2 := pidsTier1.filterMap (fun pid => (rp pid).map (fun val => (0x100 ||| pid, val)))
    let log3 :=
      if st.count % 50 == 0 then
        match pidTier2.get? (tier2Idx st.count) with
        | some pid =>
          if valid pid then
            match rp pid with
            | some val => [(0x100 ||| pid, val)]
            | none => []
          else []
        | none => []
      else []
    { sp := sp, count := (st.count + 1) % 256, logged := st.logged ++ log1 ++ log2 ++ log3 }

/-- A concrete polling iteration whose speed read always succeeds and
whose other PID reads fail (used to trace the tier-2 counter). -/
def obdStep (st : ObdState) : ObdState :=
  processOBD (fun p => if p == PID_SPEED then some 1 else none) (fun _ => true) 0 st

def obdInit : ObdState := ⟨⟨0, 0, 0⟩, 0, []⟩

def iterObd : Nat → ObdState → ObdState
  | 0, st => st
  | n + 1, st => iterObd n (obdStep st)

/-! ## Transmission cycle (loop, lines 394-430) -/

structure TxState where
  connErrors : Nat
  txCount : Nat
  lastSyncTime : Nat
  lastSentTime : Nat
  buf : List Nat
  samples : Nat
  netOpens : Nat
  netCloses : Nat
deriving DecidableEq

/-- One send cycle, entered when the sending interval elapsed and the
cache is non-empty: seal the cache and transmit; on success clear the
error counter, bump `txCount` and reopen the cache with a header; on
failure increment the error counter and unseal (`untailer`) the cache.
Either way, when `getConnErrors()` has reached the reconnect threshold
(`MAX_CONN_ERRORS_RECONNECT`, from the configuration header not under
`src/`, hence a parameter), close and reopen the link and zero
`lastSyncTime`; finally record the send time. -/
def sendCycle (thresh feedid : Nat) (sendOk : Bool) (t : Nat) (st : TxState) :
    TxState :=
  let sealed := tailerBuf st.buf
  let st1 :=
    if sendOk then
      { st with connErrors := 0, txCount := st.txCount + 1,
                buf := headerBuf feedid, samples := 0 }
    else
      { st with connErrors := st.connErrors + 1, buf := untailerBuf sealed }
  let st2 :=
    if thresh ≤ st1.connErrors then
      { st1 with netCloses := st1.netCloses + 1, netOpens := st1.netOpens + 1,
                 lastSyncTime := 0 }
    else st1
  { st2 with lastSentTime := t }

/-! ## Local serial command channel (loop, lines 440-451) -/

/-- One input character against the pending `serialCommand` line: a
carriage return or newline executes a non-empty pending command (and
clears it); other characters append only while the line is shorter than
32 characters. -/
def serialStep (pending : List Nat) (c : Nat) : List Nat × Option (List Nat) :=
  if c = 13 ∨ c = 10 then
    if 0 < pending.length then ([], some pending) else (pending, none)
  else if pending.length < 32 then (pending ++ [c], none)
  else (pending, none)

/-- Run the serial input loop over a character stream, collecting the
commands executed (each executed command also produces one result
print). -/
def serialRun (pending : List Nat) : List Nat → List Nat × List (List Nat)
  | [] => (pending, [])
  | c :: cs =>
    let s := serialStep pending c
    let r := serialRun s.1 cs
    (r.1, (match s.2 with | some cmd => [cmd] | none => []) ++ r.2)

/-! ## Concrete scenario inputs -/

/-- A fixed `executeCommand` result used in concrete runs. -/
def exec0 : List Nat → List Nat := fun _ => strBytes ("OK")

/-- A concrete inbound command datagram (payload after checksum
truncation): token 9, command STANDBY. -/
def c1data : List Nat := strBytes ("EV=5,TS=1,TK=9,CMD=STANDBY")

/-- Frame a payload with a correct 2-hex-digit checksum trailer. -/
def mkFramed (pre : List Nat) : List Nat :=
  pre ++ 42 :: [hexDigitByte (byteSum pre / 16), hexDigitByte (byteSum pre % 16)]

/-- A reply whose checksum digits (`00`) do not match its content. -/
def corruptD : List Nat := strBytes ("EV=1,TM=7*00")

/-- Three transport attempts, each answered by the corrupted reply. -/
def c5wire : List Wire :=
  [Wire.sent (some corruptD), Wire.sent (some corruptD), Wire.sent (some corruptD)]

/-- A checksum-valid reply that does not echo `EV=3`. -/
def c6bad : List Nat := mkFramed (strBytes ("EV=9,OK"))

/-- A checksum-valid reply that does echo `EV=3`. -/
def c6good : List Nat := mkFramed (strBytes ("EV=3,OK"))

/-- The final accumulator state after a sequence of speed samples. -/
def runSpeed (st : SpeedState) : List (Int × Nat) → SpeedState
  | [] => st
  | (v, t) :: rest => runSpeed (speedStep st v t) rest

/-- `k` speed readings of 1 km/h spaced 2147483647 ms apart, starting
right after device time `t0`: enough driving time that the 32-bit
distance accumulator eventually wraps. -/
def c7gen : Nat → Nat → List (Int × Nat)
  | 0, _ => []
  | k + 1, t0 => ((1 : Int), t0 + 2147483647) :: c7gen k (t0 + 2147483647)

/-! # Supporting lemmas -/

theorem lastIdxOf_eq_none {x : Nat} {l : List Nat} (h : x ∉ l) :
    lastIdxOf x l = none := by
  induction l with
  | nil => rfl
  | cons y ys ih =>
    simp only [List.mem_cons, not_or] at h
    unfold lastIdxOf
    rw [ih h.2]
    simp only [beq_iff_eq, ite_eq_right_iff]
    intro hyx
    exact absurd hyx.symm h.1

theorem lastIdxOf_append {x : Nat} {s : List Nat} (hs : x ∉ s) :
    ∀ b : List Nat, lastIdxOf x (b ++ x :: s) = some b.length := by
  intro b
  induction b with
  | nil =>
    show lastIdxOf x (x :: s) = some 0
    unfold lastIdxOf
    rw [lastIdxOf_eq_none hs]
    simp
  | cons y ys ih =>
    show lastIdxOf x (y :: (ys ++ x :: s)) = _
    unfold lastIdxOf
    rw [ih]
    simp

theorem verifyChecksum_framed (pre s : List Nat) (hs : 42 ∉ s) :
    verifyChecksum (pre ++ 42 :: s) =
      if hex2uint8 s = byteSum pre then (true, pre)
      else (false, pre ++ 42 :: s) := by
  unfold verifyChecksum
  rw [lastIdxOf_append hs]
  have ht : (pre ++ 42 :: s).take pre.length = pre := by simp
  have hd : (pre ++ 42 :: s).drop (pre.length + 1) = s := by
    rw [List.append_cons]
    have h : (pre ++ [42]).length = pre.length + 1 := by simp
    rw [← h, List.drop_left]
  simp only [ht, hd]

theorem verifyChecksum_noStar {d : List Nat} (h : 42 ∉ d) :
    verifyChecksum d = (false, d) := by
  unfold verifyChecksum
  rw [lastIdxOf_eq_none h]

theorem star_not_mem_hexBytes (n : Nat) : 42 ∉ hexBytes n := by
  unfold hexBytes
  split
  · simp
  · intro hmem
    simp only [List.mem_reverse, List.mem_map] at hmem
    obtain ⟨d, _, hd⟩ := hmem
    unfold hexDigitByte at hd
    split at hd <;> omega

theorem untailer_tailer (b : List Nat) : untailerBuf (tailerBuf b) = b := by
  unfold tailerBuf untailerBuf
  rw [lastIdxOf_append (star_not_mem_hexBytes (byteSum b))]
  simp

/-! # Claims -/

/-- C2: checksum validation splits at the last `*`, sums all bytes
strictly before it with an 8-bit accumulator, and compares the sum to
the 2-hex-digit value after the `*`; on mismatch, or when no `*` is
present, the datagram is rejected and the inbound handler parses
nothing (state unchanged, no event dispatched, no ack). -/
theorem C2_checksum_validation (pre s bad : List Nat)
    (exec : List Nat → List Nat) (t : Nat) (st : LoopSt)
    (hs : 42 ∉ s) (hbad : (verifyChecksum bad).1 = false) :
    verifyChecksum (pre ++ 42 :: s) =
      (if hex2uint8 s = byteSum pre then (true, pre)
       else (false, pre ++ 42 :: s)) ∧
    (∀ d : List Nat, 42 ∉ d → verifyChecksum d = (false, d)) ∧
    handleDatagram exec t st bad = (st, none) := by
  refine ⟨verifyChecksum_framed pre s hs, fun d hd => verifyChecksum_noStar hd, ?_⟩
  unfold handleDatagram
  simp [hbad]

/-- Witness for C2 at a concrete framed datagram (`EV=1` with
correct checksum `09`) and a concrete corrupt datagram. -/
theorem C2_checksum_validation_witness :
    verifyChecksum (strBytes ("EV=1") ++ 42 :: strBytes ("09")) =
      (if hex2uint8 (strBytes ("09")) = byteSum (strBytes ("EV=1"))
        then (true, strBytes ("EV=1"))
        else (false, strBytes ("EV=1") ++ 42 :: strBytes ("09"))) ∧
    (∀ d : List Nat, 42 ∉ d → verifyChecksum d = (false, d)) ∧
    handleDatagram exec0 5 ⟨⟨0, [], []⟩, 0⟩ corruptD = (⟨⟨0, [], []⟩, 0⟩, none) :=
  C2_checksum_validation (strBytes ("EV=1")) (strBytes ("09")) corruptD exec0 5
    ⟨⟨0, [], []⟩, 0⟩ (by decide) (by decide)

/-- C9: `verifyChecksum` mutates its buffer exactly on success — a valid
checksum truncates the datagram at the last `*` (the C code overwrites
it with NUL), so the returned buffer is the payload without its
trailer; on a sum mismatch or when no `*` exists the buffer is returned
byte-for-byte unchanged. -/
theorem C9_verifyChecksum_frame (pre s d : List Nat) (hs : 42 ∉ s) (hd : 42 ∉ d) :
    (hex2uint8 s = byteSum pre →
      verifyChecksum (pre ++ 42 :: s) = (true, pre)) ∧
    (hex2uint8 s ≠ byteSum pre →
      verifyChecksum (pre ++ 42 :: s) = (false, pre ++ 42 :: s)) ∧
    verifyChecksum d = (false, d) := by
  refine ⟨fun h => ?_, fun h => ?_, verifyChecksum_noStar hd⟩
  · rw [verifyChecksum_framed pre s hs, if_pos h]
  · rw [verifyChecksum_framed pre s hs, if_neg h]

/-- Witness for C9: the matching frame is truncated to its payload, and
a starless datagram comes back unchanged. -/
theorem C9_verifyChecksum_frame_witness :
    verifyChecksum (strBytes ("EV=1") ++ 42 :: strBytes ("09")) =
      (true, strBytes ("EV=1")) ∧
    verifyChecksum (strBytes ("EV=1,DATA")) = (false, strBytes ("EV=1,DATA")) :=
  ⟨(C9_verifyChecksum_frame (strBytes ("EV=1")) (strBytes ("09"))
      (strBytes ("EV=1,DATA")) (by decide) (by decide)).1 (by decide),
   (C9_verifyChecksum_frame (strBytes ("EV=1")) (strBytes ("09"))
      (strBytes ("EV=1,DATA")) (by decide) (by decide)).2.2⟩

/-- C1 (code bug): the source never assigns `lastCmdToken`, so
processing the same command datagram (token 9, command STANDBY) twice
from the initial state executes the command a second time, and the
second acknowledgment carries `MSG=` with the command result rather
than the `DUP=1` duplicate marker. -/
theorem C1_duplicate_token_reexecuted :
    processCommand exec0 (processCommand exec0 ⟨0, [], []⟩ c1data) c1data =
      ⟨0, [strBytes ("STANDBY"), strBytes ("STANDBY")],
        [strBytes ("TK=9,MSG=OK"), strBytes ("TK=9,MSG=OK")]⟩ ∧
    containsSeq (strBytes (",DUP=1")) (strBytes ("TK=9,MSG=OK")) = false := by
  exact ⟨by decide, by decide⟩

set_option maxRecDepth 200000 in
/-- C3 (code bug): the tier-2 gate fires whenever the wrapping byte
counter is a multiple of 50, and the subscript used on the 5-element
`pidTier2` table is `tier2Idx` (the post-increment counter divided
by 50).  Counter value 250 is reached after 250 polling iterations, the
gate fires there, and the subscript is 5 — past the end of the table
(an out-of-bounds read in the C code); the first five firings do cycle
through subscripts 0-4. -/
theorem C3_tier2_index_out_of_bounds :
    (iterObd 250 obdInit).count = 250 ∧
    250 % 50 = 0 ∧
    [tier2Idx 0, tier2Idx 50, tier2Idx 100, tier2Idx 150, tier2Idx 200] =
      [0, 1, 2, 3, 4] ∧
    tier2Idx 250 = 5 ∧
    pidTier2.length = 5 ∧
    pidTier2.get? (tier2Idx 250) = none := by
  refine ⟨?_, by decide, by decide, by decide, by decide, by decide⟩
  decide

/-- C4: when a transmission fails, the send cycle increments the
connection error counter, unseals the cache so the buffered bytes and
sample count are exactly what they were before sealing, and — exactly
when the counter has reached the reconnect threshold — closes and
reopens the network link and zeroes the last-sync timestamp. -/
theorem C4_failed_send_retains_cache (thresh feedid t : Nat) (st : TxState) :
    (sendCycle thresh feedid false t st).connErrors = st.connErrors + 1 ∧
    (sendCycle thresh feedid false t st).buf = st.buf ∧
    (sendCycle thresh feedid false t st).samples = st.samples ∧
    (sendCycle thresh feedid false t st).txCount = st.txCount ∧
    (thresh ≤ st.connErrors + 1 →
      (sendCycle thresh feedid false t st).netCloses = st.netCloses + 1 ∧
      (sendCycle thresh feedid false t st).netOpens = st.netOpens + 1 ∧
      (sendCycle thresh feedid false t st).lastSyncTime = 0) ∧
    (st.connErrors + 1 < thresh →
      (sendCycle thresh feedid false t st).netCloses = st.netCloses ∧
      (sendCycle thresh feedid false t st).netOpens = st.netOpens ∧
      (sendCycle thresh feedid false t st).lastSyncTime = st.lastSyncTime) := by
  unfold sendCycle
  simp only [Bool.false_eq_true, if_false, untailer_tailer]
  split
  · next h => exact ⟨rfl, rfl, rfl, rfl, fun _ => ⟨rfl, rfl, rfl⟩, fun hlt => absurd h (by omega)⟩
  · next h => exact ⟨rfl, rfl, rfl, rfl, fun hle => absurd hle h, fun _ => ⟨rfl, rfl, rfl⟩⟩

/-- Witness for C4 at a concrete cache state with the threshold reached
on this failure. -/
theorem C4_failed_send_retains_cache_witness :
    (sendCycle 1 10 false 99 ⟨0, 1, 7, 2, strBytes ("A#13:1,"), 3, 4, 5⟩).connErrors = 1 ∧
    (sendCycle 1 10 false 99 ⟨0, 1, 7, 2, strBytes ("A#13:1,"), 3, 4, 5⟩).buf =
      strBytes ("A#13:1,") ∧
    (sendCycle 1 10 false 99 ⟨0, 1, 7, 2, strBytes ("A#13:1,"), 3, 4, 5⟩).samples = 3 ∧
    (sendCycle 1 10 false 99 ⟨0, 1, 7, 2, strBytes ("A#13:1,"), 3, 4, 5⟩).netCloses = 6 ∧
    (sendCycle 1 10 false 99 ⟨0, 1, 7, 2, strBytes ("A#13:1,"), 3, 4, 5⟩).netOpens = 5 ∧
    (sendCycle 1 10 false 99 ⟨0, 1, 7, 2, strBytes ("A#13:1,"), 3, 4, 5⟩).lastSyncTime = 0 := by
  have h := C4_failed_send_retains_cache 1 10 99 ⟨0, 1, 7, 2, strBytes ("A#13:1,"), 3, 4, 5⟩
  have hth := h.2.2.2.2.1 (by decide)
  exact ⟨h.1, h.2.1, h.2.2.1, hth.1, hth.2.1, hth.2.2⟩

/-- C8: a failed speed read aborts the whole `processOBD` iteration —
nothing is logged, no other parameter is polled, the distance state is
untouched and the tier-2 rotation counter does not advance. -/
theorem C8_speed_read_gates_iteration (rp : Nat → Option Int)
    (valid : Nat → Bool) (t : Nat) (st : ObdState)
    (h : rp PID_SPEED = none) : processOBD rp valid t st = st := by
  unfold processOBD
  rw [h]

/-- Witness for C8: the all-failing oracle leaves a populated state
unchanged. -/
theorem C8_speed_read_gates_iteration_witness :
    processOBD (fun _ => none) (fun _ => true) 123 ⟨⟨9, 8, 7⟩, 6, [(5, 4)]⟩ =
      ⟨⟨9, 8, 7⟩, 6, [(5, 4)]⟩ :=
  C8_speed_read_gates_iteration (fun _ => none) (fun _ => true) 123
    ⟨⟨9, 8, 7⟩, 6, [(5, 4)]⟩ rfl

theorem serialStep_len {p : List Nat} {c : Nat} (hp : p.length ≤ 32) :
    (serialStep p c).1.length ≤ 32 := by
  unfold serialStep
  split
  · split <;> simp [hp]
  · split
    · next h => simp only [List.length_append, List.length_singleton]; omega
    · exact hp

theorem serial_inv : ∀ (cs p : List Nat), p.length ≤ 32 →
    (serialRun p cs).1.length ≤ 32 := by
  intro cs
  induction cs with
  | nil => intro p hp; exact hp
  | cons c cs ih =>
    intro p hp
    show (serialRun (serialStep p c).1 cs).1.length ≤ 32
    exact ih _ (serialStep_len hp)

theorem serialRun_append (xs : List Nat) : ∀ (p ys : List Nat),
    serialRun p (xs ++ ys) =
      ((serialRun (serialRun p xs).1 ys).1,
        (serialRun p xs).2 ++ (serialRun (serialRun p xs).1 ys).2) := by
  induction xs with
  | nil => intro p ys; simp [serialRun]
  | cons c cs ih =>
    intro p ys
    simp only [List.cons_append, serialRun, List.append_eq, ih, List.append_assoc]

theorem serialRun_noNewline : ∀ (line : List Nat),
    (∀ c ∈ line, ¬(c = 13 ∨ c = 10)) → ∀ p : List Nat, p.length ≤ 32 →
    serialRun p line = ((p ++ line).take 32, []) := by
  intro line
  induction line with
  | nil =>
    intro _ p hp
    simp [serialRun, List.take_of_length_le hp]
  | cons c cs ih =>
    intro hl p hp
    have hc := hl c (List.mem_cons_self c cs)
    have hcs : ∀ x ∈ cs, ¬(x = 13 ∨ x = 10) := fun x hx => hl x (List.mem_cons_of_mem c hx)
    show (let s := serialStep p c
          let r := serialRun s.1 cs
          (r.1, (match s.2 with | some cmd => [cmd] | none => []) ++ r.2)) = _
    unfold serialStep
    rw [if_neg hc]
    by_cases h32 : p.length < 32
    · rw [if_pos h32]
      simp only []
      rw [ih hcs (p ++ [c]) (by simp only [List.length_append, List.length_singleton]; omega)]
      simp [List.append_assoc]
    · rw [if_neg h32]
      simp only []
      rw [ih hcs p hp]
      have hp32 : p.length = 32 := le_antisymm hp (not_lt.mp h32)
      have h1 : (p ++ cs).take 32 = p := by rw [← hp32, List.take_left]
      have h2 : (p ++ c :: cs).take 32 = p := by rw [← hp32, List.take_left]
      rw [h1, h2]
      simp

/-- C10: the pending serial command line never exceeds 32 characters
(characters past the 32nd before a newline are dropped, and the
truncated command is still executed at the newline), while an empty
line executes no command and produces no output. -/
theorem C10_serial_line_bound (line p cs : List Nat)
    (hl : ∀ c ∈ line, ¬(c = 13 ∨ c = 10)) (hp : p.length ≤ 32) :
    (serialRun p cs).1.length ≤ 32 ∧
    serialRun [] (line ++ [10]) =
      ([], if line = [] then [] else [line.take 32]) ∧
    serialRun [] [13] = ([], []) := by
  refine ⟨serial_inv cs p hp, ?_, by decide⟩
  rw [serialRun_append]
  rw [serialRun_noNewline line hl [] (by simp)]
  simp only [List.nil_append]
  by_cases hnil : line = []
  · subst hnil
    simp [serialRun, serialStep]
  · rw [if_neg hnil]
    have hpos : 0 < line.length := List.length_pos.mpr hnil
    simp [serialRun, serialStep, hpos]

/-- Witness for C10: a 40-character line is executed truncated to its
first 32 characters. -/
theorem C10_serial_line_bound_witness :
    (serialRun (strBytes ("OBD")) (strBytes ("0100") ++ [13])).1.length ≤ 32 ∧
    serialRun [] (strBytes ("OBD01000100010001000100010001000100010*") ++ [10]) =
      ([], [(strBytes ("OBD01000100010001000100010001000100010*")).take 32]) ∧
    serialRun [] [13] = ([], []) := by
  have h := C10_serial_line_bound
    (strBytes ("OBD01000100010001000100010001000100010*")) (strBytes ("OBD"))
    (strBytes ("0100") ++ [13]) (by decide) (by decide)
  refine ⟨h.1, ?_, h.2.2⟩
  rw [h.2.1]
  decide

theorem attempt_fails_of_corrupt {event : Nat} (hev : event ≠ EVENT_ACK)
    {w : Wire} (h : isCorruptReply w = true) :
    attemptSucceeds event w = false := by
  cases w with
  | sendFail => rfl
  | sent r =>
    cases r with
    | none => simp [isCorruptReply] at h
    | some d =>
      simp only [isCorruptReply, Bool.not_eq_true'] at h
      simp [attemptSucceeds, beq_eq_false_iff_ne.mpr hev, h]

theorem attempt_fails_of_lacks {event : Nat} (hev : event ≠ EVENT_ACK)
    {w : Wire} (h : lacksPattern event w = true) :
    attemptSucceeds event w = false := by
  cases w with
  | sendFail => rfl
  | sent r =>
    cases r with
    | none => simp [lacksPattern] at h
    | some d =>
      simp only [lacksPattern, Bool.and_eq_true, Bool.not_eq_true'] at h
      simp [attemptSucceeds, beq_eq_false_iff_ne.mpr hev, h.1, h.2]

theorem notifyRun_all_corrupt {w1 w2 w3 : Wire}
    (h1 : isCorruptReply w1 = true) (h2 : isCorruptReply w2 = true)
    (h3 : isCorruptReply w3 = true) :
    notifyRun EVENT_LOGIN [w1, w2, w3] = (false, 3) := by
  have hev : EVENT_LOGIN ≠ EVENT_ACK := by decide
  simp [notifyRun, attempt_fails_of_corrupt hev h1,
    attempt_fails_of_corrupt hev h2, attempt_fails_of_corrupt hev h3]

/-- C5 (amended): when the server answers every LOGIN request with a
checksum-corrupted reply, `login()` fails after its 3 connect attempts,
but each attempt's `notifyServer` itself retries the send 3 times, so 9
LOGIN requests are sent in total (not 3); `setup()` then returns
failure without setting the `STATE_CONNECTED` readiness bit. -/
theorem C5_login_retry_amended (w1 w2 w3 w4 w5 w6 w7 w8 w9 : Wire) (m : Nat)
    (h1 : isCorruptReply w1 = true) (h2 : isCorruptReply w2 = true)
    (h3 : isCorruptReply w3 = true) (h4 : isCorruptReply w4 = true)
    (h5 : isCorruptReply w5 = true) (h6 : isCorruptReply w6 = true)
    (h7 : isCorruptReply w7 = true) (h8 : isCorruptReply w8 = true)
    (h9 : isCorruptReply w9 = true)
    (hm : checkState m STATE_CONNECTED = false) :
    loginRun [(true, [w1, w2, w3]), (true, [w4, w5, w6]), (true, [w7, w8, w9])] =
      ⟨false, 9, 3⟩ ∧
    (setupFinish (loginRun [(true, [w1, w2, w3]), (true, [w4, w5, w6]),
        (true, [w7, w8, w9])]).ok m).2 = false ∧
    checkState (setupFinish (loginRun [(true, [w1, w2, w3]), (true, [w4, w5, w6]),
        (true, [w7, w8, w9])]).ok m).1 STATE_CONNECTED = false := by
  have hr : loginRun [(true, [w1, w2, w3]), (true, [w4, w5, w6]),
      (true, [w7, w8, w9])] = ⟨false, 9, 3⟩ := by
    simp [loginRun, notifyRun_all_corrupt h1 h2 h3,
      notifyRun_all_corrupt h4 h5 h6, notifyRun_all_corrupt h7 h8 h9]
  refine ⟨hr, ?_, ?_⟩
  · rw [hr]
    rfl
  · rw [hr]
    exact hm

/-- Witness for C5 at the concrete corrupted reply `EV=1,TM=7*00`. -/
theorem C5_login_retry_amended_witness :
    loginRun [(true, c5wire), (true, c5wire), (true, c5wire)] = ⟨false, 9, 3⟩ ∧
    (setupFinish (loginRun [(true, c5wire), (true, c5wire), (true, c5wire)]).ok 0).2 =
      false ∧
    checkState (setupFinish (loginRun [(true, c5wire), (true, c5wire),
        (true, c5wire)]).ok 0).1 STATE_CONNECTED = false := by
  have h := C5_login_retry_amended (Wire.sent (some corruptD)) (Wire.sent (some corruptD))
    (Wire.sent (some corruptD)) (Wire.sent (some corruptD)) (Wire.sent (some corruptD))
    (Wire.sent (some corruptD)) (Wire.sent (some corruptD)) (Wire.sent (some corruptD))
    (Wire.sent (some corruptD)) 0 (by decide) (by decide) (by decide) (by decide)
    (by decide) (by decide) (by decide) (by decide) (by decide) (by decide)
  exact h

/-- C5 counterexample: with the corrupted reply delivered to every LOGIN
request, the model sends the LOGIN request 9 times, refuting the claim's
"3 sends of the LOGIN request in total". -/
theorem C5_login_sends_counterexample :
    loginRun [(true, c5wire), (true, c5wire), (true, c5wire)] = ⟨false, 9, 3⟩ ∧
    (loginRun [(true, c5wire), (true, c5wire), (true, c5wire)]).sends ≠ 3 := by
  exact ⟨by decide, by decide⟩

/-- C6: a reply that passes checksum validation but does not echo the
`EV=<n>` pattern of the request is rejected: it counts as a failed
attempt (three such replies exhaust the 3-attempt cap and the round
trip fails), and a retry after one such reply can still succeed on the
next attempt (the bad reply itself is never treated as success). -/
theorem C6_reply_must_echo_event (event : Nat) (a b c g : Wire)
    (hev : event ≠ EVENT_ACK)
    (ha : lacksPattern event a = true) (hb : lacksPattern event b = true)
    (hc : lacksPattern event c = true)
    (hg : attemptSucceeds event g = true) :
    notifyRun event [a, b, c] = (false, 3) ∧
    notifyRun event [a, g, c] = (true, 2) := by
  constructor
  · simp [notifyRun, attempt_fails_of_lacks hev ha,
      attempt_fails_of_lacks hev hb, attempt_fails_of_lacks hev hc]
  · simp [notifyRun, attempt_fails_of_lacks hev ha, hg]

/-- Witness for C6: a checksum-valid `EV=9` reply to an `EV=3` request
is rejected on every attempt; a correct `EV=3` echo on the second
attempt succeeds with 2 sends. -/
theorem C6_reply_must_echo_event_witness :
    notifyRun 3 [Wire.sent (some c6bad), Wire.sent (some c6bad),
      Wire.sent (some c6bad)] = (false, 3) ∧
    notifyRun 3 [Wire.sent (some c6bad), Wire.sent (some c6good),
      Wire.sent (some c6bad)] = (true, 2) :=
  C6_reply_must_echo_event 3 (Wire.sent (some c6bad)) (Wire.sent (some c6bad))
    (Wire.sent (some c6bad)) (Wire.sent (some c6good)) (by decide) (by decide)
    (by decide) (by decide) (by decide)

theorem c7gen_fst : ∀ (k t0 : Nat) (s : Int × Nat), s ∈ c7gen k t0 → s.1 = 1 := by
  intro k
  induction k with
  | zero => intro t0 s h; simp [c7gen] at h
  | succ k ih =>
    intro t0 s h
    rcases List.mem_cons.mp h with h1 | h2
    · rw [h1]
    · exact ih _ s h2

theorem c7gen_chainTs : ∀ (k t0 : Nat),
    List.Chain (· < ·) t0 ((c7gen k t0).map Prod.snd) := by
  intro k
  induction k with
  | zero => intro t0; exact List.Chain.nil
  | succ k ih =>
    intro t0
    exact List.Chain.cons (by omega) (ih (t0 + 2147483647))

theorem c7gen_chainTs2 (k t0 : Nat) :
    List.Chain' (· < ·) ((c7gen k t0).map Prod.snd) := by
  cases k with
  | zero => exact trivial
  | succ k => exact c7gen_chainTs k (t0 + 2147483647)

theorem c7gen_ne_nil (k t0 : Nat) (hk : k ≠ 0) : c7gen k t0 ≠ [] := by
  cases k with
  | zero => exact absurd rfl hk
  | succ k => simp [c7gen]

theorem c7gen_append : ∀ (m t0 n : Nat),
    c7gen (m + n) t0 = c7gen m t0 ++ c7gen n (t0 + m * 2147483647) := by
  intro m
  induction m with
  | zero => intro t0 n; simp [c7gen]
  | succ m ih =>
    intro t0 n
    have e : m + 1 + n = (m + n) + 1 := by ring
    rw [e]
    show (1, t0 + 2147483647) :: c7gen (m + n) (t0 + 2147483647) =
      ((1, t0 + 2147483647) :: c7gen m (t0 + 2147483647)) ++
        c7gen n (t0 + (m + 1) * 2147483647)
    rw [List.cons_append, ih (t0 + 2147483647) n]
    have e2 : t0 + 2147483647 + m * 2147483647 = t0 + (m + 1) * 2147483647 := by ring
    rw [e2]

theorem dtu_const (a : Nat) :
    ((a + 2147483647) % 2 ^ 32 + 2 ^ 32 - a % 2 ^ 32) % 2 ^ 32 = 2147483647 := by
  have h : (2 : Nat) ^ 32 = 4294967296 := by norm_num
  rw [h]
  omega

theorem delta_const (d t0 : Nat) :
    speedDelta ⟨d, 1, t0 % 2 ^ 32⟩ 1 (t0 + 2147483647) = 596523 := by
  unfold speedDelta
  rw [dtu_const]
  show toU32 (1 + 1) * 2147483647 % 2 ^ 32 / 3600 / 2 = 596523
  decide

theorem runSpeed_const : ∀ (k d t0 : Nat), d < 2 ^ 32 →
    runSpeed ⟨d, 1, t0 % 2 ^ 32⟩ (c7gen k t0) =
      ⟨(d + k * 596523) % 2 ^ 32, 1, (t0 + k * 2147483647) % 2 ^ 32⟩ := by
  intro k
  induction k with
  | zero =>
    intro d t0 hd
    simp [c7gen, runSpeed]
    omega
  | succ k ih =>
    intro d t0 hd
    show runSpeed (speedStep ⟨d, 1, t0 % 2 ^ 32⟩ 1 (t0 + 2147483647))
      (c7gen k (t0 + 2147483647)) = _
    have hstep : speedStep ⟨d, 1, t0 % 2 ^ 32⟩ 1 (t0 + 2147483647) =
        ⟨(d + 596523) % 2 ^ 32, 1, (t0 + 2147483647) % 2 ^ 32⟩ := by
      unfold speedStep
      rw [delta_const]
    rw [hstep, ih ((d + 596523) % 2 ^ 32) (t0 + 2147483647)
      (Nat.mod_lt _ (by norm_num))]
    have e1 : ((d + 596523) % 2 ^ 32 + k * 596523) % 2 ^ 32 =
        (d + (k + 1) * 596523) % 2 ^ 32 := by
      rw [Nat.mod_add_mod]
      congr 1
      ring
    have e2 : (t0 + 2147483647 + k * 2147483647) % 2 ^ 32 =
        (t0 + (k + 1) * 2147483647) % 2 ^ 32 := by
      congr 1
      ring
    rw [e1, e2]

theorem distancesFrom_append : ∀ (l1 : List (Int × Nat)) (st : SpeedState)
    (l2 : List (Int × Nat)),
    distancesFrom st (l1 ++ l2) =
      distancesFrom st l1 ++ distancesFrom (runSpeed st l1) l2 := by
  intro l1
  induction l1 with
  | nil => intro st l2; rfl
  | cons vt rest ih =>
    intro st l2
    obtain ⟨v, t⟩ := vt
    show (speedStep st v t).distance ::
      distancesFrom (speedStep st v t) (rest ++ l2) = _
    rw [ih]
    rfl

theorem distancesFrom_last : ∀ (l : List (Int × Nat)) (st : SpeedState),
    l ≠ [] → ∃ L0, distancesFrom st l = L0 ++ [(runSpeed st l).distance] := by
  intro l
  induction l with
  | nil => intro st h; exact absurd rfl h
  | cons vt rest ih =>
    intro st _
    obtain ⟨v, t⟩ := vt
    by_cases hr : rest = []
    · subst hr
      exact ⟨[], rfl⟩
    · obtain ⟨L0, hL0⟩ := ih (speedStep st v t) hr
      refine ⟨(speedStep st v t).distance :: L0, ?_⟩
      show (speedStep st v t).distance :: distancesFrom (speedStep st v t) rest = _
      rw [hL0]
      rfl

/-- C7 (amended): for every sequence of non-negative speed readings at
strictly increasing timestamps, the 32-bit distance accumulator is
non-decreasing across the sequence provided the true accumulated total
stays below `2^32`; without that bound the `uint32_t` accumulator can
wrap and decrease (see the wrap counterexample). -/
theorem C7_distance_monotone_no_overflow (l : List (Int × Nat)) (st : SpeedState)
    (hv : ∀ s ∈ l, 0 ≤ s.1)
    (ht : List.Chain' (· < ·) (l.map Prod.snd))
    (hd : st.distance < 2 ^ 32)
    (hnw : st.distance + deltaSum st l < 2 ^ 32) :
    List.Chain (· ≤ ·) st.distance (distancesFrom st l) := by
  induction l generalizing st with
  | nil => exact List.Chain.nil
  | cons vt rest ih =>
    obtain ⟨v, t⟩ := vt
    have hδ : deltaSum st ((v, t) :: rest) =
        speedDelta st v t + deltaSum (speedStep st v t) rest := rfl
    have hlt : st.distance + speedDelta st v t < 2 ^ 32 := by
      rw [hδ] at hnw
      omega
    have hstd : (speedStep st v t).distance = st.distance + speedDelta st v t := by
      show (st.distance + speedDelta st v t) % 2 ^ 32 = _
      exact Nat.mod_eq_of_lt hlt
    show List.Chain _ st.distance
      ((speedStep st v t).distance :: distancesFrom (speedStep st v t) rest)
    refine List.Chain.cons (by rw [hstd]; omega) ?_
    refine ih (speedStep st v t) (fun s hs => hv s (List.mem_cons_of_mem _ hs))
      ht.tail ?_ ?_
    · rw [hstd]
      exact hlt
    · rw [hstd]
      rw [hδ] at hnw
      omega

/-- Witness for C7 (amended) on two short samples. -/
theorem C7_distance_monotone_no_overflow_witness :
    List.Chain (· ≤ ·) (0 : Nat)
      (distancesFrom ⟨0, 0, 0⟩ [((1 : Int), 3600), ((2 : Int), 7200)]) :=
  C7_distance_monotone_no_overflow [((1 : Int), 3600), ((2 : Int), 7200)]
    ⟨0, 0, 0⟩ (by decide) (by norm_num [List.chain'_cons]) (by norm_num) (by decide)

/-- C7 counterexample: a sequence of 7201 non-negative speed readings
at strictly increasing timestamps (speed 1, spaced 2147483647 ms) on
which the stored distance is NOT non-decreasing — the 32-bit
accumulator wraps on the final sample (4294667338 to 296565). -/
theorem C7_wrap_counterexample :
    (∀ s ∈ c7gen 7201 0, 0 ≤ s.1) ∧
    List.Chain' (· < ·) ((c7gen 7201 0).map Prod.snd) ∧
    ¬ List.Chain (· ≤ ·) 0 (distancesFrom ⟨0, 0, 0⟩ (c7gen 7201 0)) := by
  refine ⟨fun s hs => by rw [c7gen_fst 7201 0 s hs]; decide, c7gen_chainTs2 7201 0, ?_⟩
  intro hch
  have e1 : c7gen 7201 0 = c7gen 1 0 ++ c7gen 7200 2147483647 := by
    have e0 : c7gen 7201 0 = c7gen 1 0 ++ c7gen 7200 (0 + 1 * 2147483647) := by
      rw [← c7gen_append]
    simpa using e0
  have e2 : c7gen 7200 2147483647 = c7gen 7199 2147483647 ++
      c7gen 1 (2147483647 + 7199 * 2147483647) := by
    rw [← c7gen_append]
  have hsplit1 : distancesFrom ⟨0, 0, 0⟩ (c7gen 7201 0) =
      distancesFrom ⟨0, 0, 0⟩ (c7gen 1 0) ++
        distancesFrom (runSpeed ⟨0, 0, 0⟩ (c7gen 1 0)) (c7gen 7200 2147483647) := by
    rw [e1]
    exact distancesFrom_append _ _ _
  have hd1 : distancesFrom ⟨0, 0, 0⟩ (c7gen 1 0) = [298261] := by decide
  have hrun1 : runSpeed ⟨0, 0, 0⟩ (c7gen 1 0) = ⟨298261, 1, 2147483647 % 2 ^ 32⟩ := by
    decide
  have hsplit2 : distancesFrom ⟨298261, 1, 2147483647 % 2 ^ 32⟩
      (c7gen 7200 2147483647) =
      distancesFrom ⟨298261, 1, 2147483647 % 2 ^ 32⟩ (c7gen 7199 2147483647) ++
        distancesFrom (runSpeed ⟨298261, 1, 2147483647 % 2 ^ 32⟩
          (c7gen 7199 2147483647)) (c7gen 1 (2147483647 + 7199 * 2147483647)) := by
    rw [e2]
    exact distancesFrom_append _ _ _
  have hrun2 : runSpeed ⟨298261, 1, 2147483647 % 2 ^ 32⟩ (c7gen 7199 2147483647) =
      ⟨4294667338, 1, (2147483647 + 7199 * 2147483647) % 2 ^ 32⟩ := by
    rw [runSpeed_const 7199 298261 2147483647 (by norm_num)]
    decide
  obtain ⟨L0, hL0⟩ := distancesFrom_last (c7gen 7199 2147483647)
    ⟨298261, 1, 2147483647 % 2 ^ 32⟩ (c7gen_ne_nil 7199 2147483647 (by norm_num))
  rw [hrun2] at hL0
  have hd3 : distancesFrom ⟨4294667338, 1, (2147483647 + 7199 * 2147483647) % 2 ^ 32⟩
      (c7gen 1 (2147483647 + 7199 * 2147483647)) = [296565] := by decide
  rw [hsplit1, hd1, hrun1, hsplit2, hL0, hrun2, hd3] at hch
  have hshape : [(298261 : Nat)] ++ (L0 ++ [4294667338] ++ [296565]) =
      298261 :: (L0 ++ [4294667338, 296565]) := by
    simp [List.append_assoc]
  rw [hshape] at hch
  rw [List.chain_iff_pairwise] at hch
  have hsub : List.Sublist [(4294667338 : Nat), 296565]
      (0 :: 298261 :: (L0 ++ [4294667338, 296565])) := by
    apply List.Sublist.cons
    apply List.Sublist.cons
    exact List.sublist_append_right L0 _
  have hpw := hch.sublist hsub
  have hle : (4294667338 : Nat) ≤ 296565 :=
    (List.pairwise_cons.mp hpw).1 296565 (by simp)
  exact absurd hle (by norm_num)

end Telelogger

